import Mathlib

/-!
# Verification of the auto-tower matching core

Shallow embedding of the repository's core (src/ui.rs, src/assets.rs,
src/main.rs): region masks, preprocessing, template matching and the
decision loop.  Rust `u32` coordinates and `u8` pixel values are modelled
as `Nat`: every arithmetic operation the embedded code performs on
coordinates of an in-bounds image stays far below `2^32`, so no wrapping
can occur and the `Nat` model is faithful.  Floating-point match scores
(`f32`) are modelled as `ℚ`; the threshold constant `0.75` is exactly
representable in both.  Fallible operations (Rust panics from library
asserts, `anyhow::Result`) are modelled with `Except String`.
-/

/-- A bitmap, row-major.  Models both `image::DynamicImage` and
`image::GrayImage`: pixel values are `Nat` (for a grayscale image, the
luma byte).  `data` lists the pixels of row 0, then row 1, … -/
structure Img where
  width : Nat
  height : Nat
  data : List Nat
deriving DecidableEq, Repr

/-- Pixel access, out-of-range reads defaulting to 0 (the embedding only
ever reads in range). -/
def Img.get (img : Img) (x y : Nat) : Nat :=
  img.data.getD (y * img.width + x) 0

/-- Per-pixel map (models per-pixel conversions such as `to_luma8`). -/
def Img.map (f : Nat → Nat) (img : Img) : Img :=
  { width := img.width, height := img.height, data := img.data.map f }

/-- Build a `w × h` bitmap from a pixel function, row-major. -/
def Img.ofFn (w h : Nat) (f : Nat → Nat → Nat) : Img :=
  { width := w, height := h,
    data := (List.range (h * w)).map (fun i => f (i % w) (i / w)) }

/-- `rust_droid::common::point::Point`, the tap-dispatch coordinate. -/
structure Point where
  x : Nat
  y : Nat
deriving DecidableEq, Repr

/-- `Point::new` (src: rust_droid dependency interface). -/
def Point.new (x y : Nat) : Point := ⟨x, y⟩

/-- `ui.rs`: `UIPoint { x: u32, y: u32 }`. -/
structure UIPoint where
  x : Nat
  y : Nat
deriving DecidableEq, Repr

/-- `UIPoint::new` (ui.rs). -/
def UIPoint.new (x y : Nat) : UIPoint := ⟨x, y⟩

/-- `ui.rs`: `UISurface { top_left: UIPoint, bottom_right: UIPoint }`. -/
structure UISurface where
  top_left : UIPoint
  bottom_right : UIPoint
deriving DecidableEq, Repr

/-- `UISurface::new` (ui.rs, lines 25–31): plain constructor, no
validation of any kind. -/
def UISurface.new (top_left bottom_right : UIPoint) : UISurface :=
  { top_left := top_left, bottom_right := bottom_right }

/-- The surface invariant stated by the spec (§3):
`top_left.x ≤ bottom_right.x ∧ top_left.y ≤ bottom_right.y`. -/
def UISurface.invariant (s : UISurface) : Prop :=
  s.top_left.x ≤ s.bottom_right.x ∧ s.top_left.y ≤ s.bottom_right.y

instance (s : UISurface) : Decidable s.invariant := by
  unfold UISurface.invariant; infer_instance

/-- `rand::random_range(lo..=hi)`: draws uniformly from the inclusive
range `lo..=hi`; panics when the range is empty (`lo > hi`).  The draw is
modelled by a `seed`: the sampled value is `lo + seed % (hi - lo + 1)`,
which ranges over exactly `lo..=hi` as `seed` varies; the panic is
modelled as `none`. -/
def randomRange (lo hi seed : Nat) : Option Nat :=
  if lo ≤ hi then some (lo + seed % (hi - lo + 1)) else none

/-- `UISurface::random_point` (ui.rs, lines 33–37): one inclusive draw
per axis; `sx`, `sy` are the two draws' seeds. -/
def UISurface.random_point (s : UISurface) (sx sy : Nat) : Option Point :=
  match randomRange s.top_left.x s.bottom_right.x sx with
  | none => none
  | some x =>
    match randomRange s.top_left.y s.bottom_right.y sy with
    | none => none
    | some y => some (Point.new x y)

/-- `ui.rs`: `UIMask { name, x, y, width, height }`. -/
structure UIMask where
  name : String
  x : Nat
  y : Nat
  width : Nat
  height : Nat
deriving DecidableEq, Repr

/-- `UIMask::GEM_COLUMN` (ui.rs). -/
def UIMask.GEM_COLUMN : UIMask :=
  { name := "GEM_COLUMN", x := 0, y := 0, width := 90, height := 695 }

/-- `UIMask::GEM_CURRENCY` (ui.rs). -/
def UIMask.GEM_CURRENCY : UIMask :=
  { name := "GEM_CURRENCY", x := 25, y := 52, width := 50, height := 25 }

/-- `UIMask::WAVE_COUNT` (ui.rs). -/
def UIMask.WAVE_COUNT : UIMask :=
  { name := "WAVE_COUNT", x := 205, y := 433, width := 50, height := 17 }

/-- `UIMask::BATTLE_END_SCREEN` (ui.rs). -/
def UIMask.BATTLE_END_SCREEN : UIMask :=
  { name := "BATTLE_END_SCREEN", x := 16, y := 150, width := 287, height := 400 }

/-- `UIMask::crop` (ui.rs, lines 89–91) delegates to
`image::DynamicImage::crop_imm(x, y, width, height)`, whose semantics
(image crate, `dynimage.rs`) clamp the rectangle to the image: `x` and
`y` are clamped into `[0, dim]`, then `width`/`height` are clamped to
what remains.  The cropped pixels are copied row-major. -/
def UIMask.crop (m : UIMask) (img : Img) : Img :=
  let x0 := min m.x img.width
  let y0 := min m.y img.height
  let w := min m.width (img.width - x0)
  let h := min m.height (img.height - y0)
  Img.ofFn w h (fun rx ry => img.get (x0 + rx) (y0 + ry))

/-- `UIMask::to_point` (ui.rs, lines 98–103): adds the mask's origin. -/
def UIMask.to_point (m : UIMask) (x y : Nat) : UIPoint :=
  { x := m.x + x, y := m.y + y }

/-- `assets.rs`: `BLOCK_RADIUS: u32 = 4`. -/
def BLOCK_RADIUS : Nat := 4

/-- `assets.rs`: `DELTA: i32 = 5`. -/
def DELTA : Int := 5

/-- Sum of the pixels of `img` in the inclusive box
`[x0, x1] × [y0, y1]` (models imageproc's integral-image box sum). -/
def Img.boxSum (img : Img) (x0 y0 x1 y1 : Nat) : Nat :=
  ((List.range (y1 + 1 - y0)).map (fun dy =>
    ((List.range (x1 + 1 - x0)).map (fun dx =>
      img.get (x0 + dx) (y0 + dy))).sum)).sum

/-- Modelled from the spec: `imageproc::contrast::adaptive_threshold` is
an external dependency whose source is not under src/.  Per §4.2, each
pixel is compared against the mean intensity of the square neighbourhood
of radius `blockRadius` around it, clipped to the image, offset by the
bias `delta`; pixels at least as bright as `mean - delta` become
foreground (255), the rest background (0).  The mean uses integer
division of the box sum by the box pixel count. -/
def adaptive_threshold (img : Img) (blockRadius : Nat) (delta : Int) : Img :=
  Img.ofFn img.width img.height (fun x y =>
    let x0 := x - blockRadius
    let y0 := y - blockRadius
    let x1 := min (x + blockRadius) (img.width - 1)
    let y1 := min (y + blockRadius) (img.height - 1)
    let total := img.boxSum x0 y0 x1 y1
    let count := (y1 + 1 - y0) * (x1 + 1 - x0)
    let mean := total / count
    if (mean : Int) - delta ≤ (img.get x y : Int) then 255 else 0)

/-- `assets.rs` `apply_threshold` (lines 9–12): converts to grayscale
(`to_luma8`, a fixed deterministic per-pixel conversion modelled by the
function `luma`), then applies adaptive thresholding with
`BLOCK_RADIUS`/`DELTA`. -/
def apply_threshold (luma : Nat → Nat) (img : Img) : Img :=
  adaptive_threshold (Img.map luma img) BLOCK_RADIUS DELTA

/-- `UIMask::apply` (ui.rs, lines 93–96): crop, then threshold. -/
def UIMask.apply (m : UIMask) (luma : Nat → Nat) (img : Img) : Img :=
  apply_threshold luma (m.crop img)

/-- `assets.rs`: `AssetTemplate { image, width, height }`; `width` and
`height` are the dimensions recorded from the preprocessed image. -/
structure AssetTemplate where
  image : Img
  width : Nat
  height : Nat
deriving DecidableEq, Repr

/-- `main.rs`: `MIN_SCORE: f32 = 0.75`.  The `f32` value `0.75` is
exactly the rational `3/4`, written with `mkRat` so that the constant
evaluates by kernel reduction. -/
def MIN_SCORE : ℚ := mkRat 3 4

/-- A grid of `f32` match scores (imageproc `Image<Luma<f32>>`),
row-major, scores as `ℚ`. -/
structure ScoreGrid where
  width : Nat
  height : Nat
  data : List ℚ
deriving DecidableEq, Repr

/-- `imageproc::template_matching::match_template` (external
dependency).  Asserts that the template fits inside the image in both
dimensions — a failed assert is a Rust panic, modelled here as
`Except.error` with the assert's message — and otherwise produces the
`(W - w + 1) × (H - h + 1)` grid of scores, one per candidate top-left
offset, in raster order.  The per-offset normalized cross-correlation
kernel divides by a square root and is therefore not a rational-valued
function of the pixels; it is abstracted as the parameter `score`
(applied to the image, the template and the candidate offset), which
every theorem below quantifies over. -/
def match_template (score : Img → Img → Nat → Nat → ℚ) (image tmpl : Img) :
    Except String ScoreGrid :=
  if image.width < tmpl.width then
    Except.error "image width must be greater than or equal to template width"
  else if image.height < tmpl.height then
    Except.error "image height must be greater than or equal to template height"
  else
    let w := image.width - tmpl.width + 1
    let h := image.height - tmpl.height + 1
    Except.ok
      { width := w, height := h,
        data := (List.range (h * w)).map (fun i => score image tmpl (i % w) (i / w)) }

/-- `imageproc::template_matching::find_extremes`, restricted to the max
side actually used by `with_surface`: scans the grid in raster order,
keeping the first strictly greater value, starting from pixel `(0,0)`.
Returns `(max_value, max_value_location)`. -/
def find_extremes (g : ScoreGrid) : ℚ × Nat × Nat :=
  ((List.range (g.height * g.width)).map (fun i =>
      (g.data.getD i 0, i % g.width, i / g.width))).foldl
    (fun acc c => if acc.1 < c.1 then c else acc) (g.data.getD 0 0, 0, 0)

/-- `main.rs` `with_surface` (lines 95–134): masks and preprocesses the
screen, runs template matching, and declares a match iff the best score
reaches `MIN_SCORE` (`best_score >= MIN_SCORE`), building the surface
from the mask-local best location translated by `to_point`.  The debug
image save and log lines are I/O with no bearing on the result and are
not modelled. -/
def with_surface (luma : Nat → Nat) (score : Img → Img → Nat → Nat → ℚ)
    (screen : Img) (template : AssetTemplate) (mask : UIMask) :
    Except String (Option UISurface) :=
  let input := mask.apply luma screen
  match match_template score input template.image with
  | Except.error e => Except.error e
  | Except.ok scores =>
    let ext := find_extremes scores
    let best_score := ext.1
    let bx := ext.2.1
    let by_ := ext.2.2
    if MIN_SCORE ≤ best_score then
      Except.ok (some (UISurface.new
        (mask.to_point bx by_)
        (mask.to_point (bx + template.width) (by_ + template.height))))
    else
      Except.ok none

/-- An observable action of one decision-loop cycle: a synthetic tap
(`droid.touch(...).execute()`) or an intra-cycle pause
(`droid.sleep(Duration::from_millis(...))`). -/
inductive DroidAction where
  | tap (p : Point)
  | pause (ms : Nat)
deriving DecidableEq, Repr

/-- One iteration of the decision loop (`main.rs` `main`, lines 173–192),
as a function of the two matching attempts.  `first` is the outcome of
`with_surface(screen, gems_template, GEM_COLUMN)`; `second` is the
*thunk* of `with_surface(screen, retry_run_template, BATTLE_END_SCREEN)`,
forced only when the first attempt returns `None` — this is exactly the
laziness of Rust's `else if let`.  `sleep_duration_secs` starts at 60; the
gems branch taps two independently drawn random points with a 500 ms pause
between and sets it to 630; the retry branch taps one random point and
sets it to 30.  Returns the actions performed and the final sleep
duration in seconds; an `Err` from a forced matching attempt propagates
via `?`, and a `random_point` panic (empty range) is an error outcome. -/
def decisionCycle (first : Except String (Option UISurface))
    (second : Unit → Except String (Option UISurface))
    (s1x s1y s2x s2y : Nat) : Except String (List DroidAction × Nat) :=
  match first with
  | Except.error e => Except.error e
  | Except.ok (some surface) =>
    match surface.random_point s1x s1y, surface.random_point s2x s2y with
    | some p1, some p2 =>
      Except.ok ([DroidAction.tap p1, DroidAction.pause 500, DroidAction.tap p2], 630)
    | _, _ => Except.error "cannot sample empty range"
  | Except.ok none =>
    match second () with
    | Except.error e => Except.error e
    | Except.ok (some surface) =>
      match surface.random_point s1x s1y with
      | some p => Except.ok ([DroidAction.tap p], 30)
      | none => Except.error "cannot sample empty range"
    | Except.ok none => Except.ok ([], 60)

/-! ## Helper lemmas -/

/-- Reading an in-range pixel of `Img.ofFn` recovers the generating
function. -/
theorem Img.get_ofFn {w h : Nat} (f : Nat → Nat → Nat) {rx ry : Nat}
    (hx : rx < w) (hy : ry < h) : (Img.ofFn w h f).get rx ry = f rx ry := by
  have hw : 0 < w := Nat.lt_of_le_of_lt (Nat.zero_le rx) hx
  have hidx : ry * w + rx < h * w := by
    calc ry * w + rx < ry * w + w := Nat.add_lt_add_left hx _
      _ = (ry + 1) * w := by ring
      _ ≤ h * w := Nat.mul_le_mul_right _ hy
  show ((List.range (h * w)).map (fun i => f (i % w) (i / w))).getD (ry * w + rx) 0
      = f rx ry
  rw [List.getD_eq_getElem _ _ (by simpa using hidx)]
  rw [List.getElem_map, List.getElem_range]
  congr 1
  · rw [Nat.mul_comm ry w, Nat.mul_add_mod, Nat.mod_eq_of_lt hx]
  · rw [Nat.mul_comm, Nat.mul_add_div hw, Nat.div_eq_of_lt hx, Nat.add_zero]

theorem Img.width_ofFn (w h : Nat) (f : Nat → Nat → Nat) :
    (Img.ofFn w h f).width = w := rfl

theorem Img.height_ofFn (w h : Nat) (f : Nat → Nat → Nat) :
    (Img.ofFn w h f).height = h := rfl

/-- `crop` yields the clamped width. -/
theorem UIMask.crop_width (m : UIMask) (img : Img) :
    (m.crop img).width = min m.width (img.width - min m.x img.width) := rfl

/-- `crop` yields the clamped height. -/
theorem UIMask.crop_height (m : UIMask) (img : Img) :
    (m.crop img).height = min m.height (img.height - min m.y img.height) := rfl

/-- An in-range pixel of the crop is the source pixel at the clamped
origin plus the relative offset. -/
theorem UIMask.crop_get (m : UIMask) (img : Img) {rx ry : Nat}
    (hx : rx < (m.crop img).width) (hy : ry < (m.crop img).height) :
    (m.crop img).get rx ry =
      img.get (min m.x img.width + rx) (min m.y img.height + ry) := by
  unfold UIMask.crop at hx hy ⊢
  exact Img.get_ofFn _ hx hy

/-- Sanity: `MIN_SCORE` is the rational number `3/4 = 0.75`. -/
theorem MIN_SCORE_eq_div : MIN_SCORE = 3 / 4 := by
  simp [MIN_SCORE, Rat.mkRat_eq_div]

/-- Decidable equality on `Except`, for evaluating the embedding at
concrete inputs. -/
instance {ε α : Type} [DecidableEq ε] [DecidableEq α] :
    DecidableEq (Except ε α) := fun a b =>
  match a, b with
  | Except.error e, Except.error f => decidable_of_iff (e = f) (by simp)
  | Except.ok x, Except.ok y => decidable_of_iff (x = y) (by simp)
  | Except.error _, Except.ok _ => Decidable.isFalse (by simp)
  | Except.ok _, Except.error _ => Decidable.isFalse (by simp)

/-- When the surface invariant holds, both inclusive draws succeed and
`random_point` returns the sampled point. -/
theorem UISurface.random_point_of_invariant (s : UISurface) (h : s.invariant)
    (sx sy : Nat) :
    s.random_point sx sy = some (Point.new
      (s.top_left.x + sx % (s.bottom_right.x - s.top_left.x + 1))
      (s.top_left.y + sy % (s.bottom_right.y - s.top_left.y + 1))) := by
  obtain ⟨hx, hy⟩ := h
  unfold UISurface.random_point randomRange
  rw [if_pos hx, if_pos hy]

/-- If the template exceeds the image in either dimension,
`match_template` fails (the imageproc assert fires). -/
theorem match_template_oversized (score : Img → Img → Nat → Nat → ℚ)
    (image tmpl : Img)
    (h : image.width < tmpl.width ∨ image.height < tmpl.height) :
    ∃ e, match_template score image tmpl = Except.error e := by
  unfold match_template
  by_cases hw : image.width < tmpl.width
  · exact ⟨_, by rw [if_pos hw]⟩
  · have hh : image.height < tmpl.height := h.resolve_left hw
    exact ⟨_, by rw [if_neg hw, if_pos hh]⟩

/-! ## Concrete fixtures for witnesses and counterexamples -/

/-- A 1×1 all-black screen. -/
def screenOne : Img := { width := 1, height := 1, data := [0] }

/-- A 10×10 screen of constant intensity 7. -/
def screenTen : Img := { width := 10, height := 10, data := List.replicate 100 7 }

/-- An 80×80 screen of constant intensity 3. -/
def screenEighty : Img := { width := 80, height := 80, data := List.replicate 6400 3 }

/-- A 1×1 template. -/
def templateOne : AssetTemplate :=
  { image := { width := 1, height := 1, data := [0] }, width := 1, height := 1 }

/-- A 2×2 template, larger than a 1×1 search region. -/
def templateTwo : AssetTemplate :=
  { image := { width := 2, height := 2, data := [0, 0, 0, 0] }, width := 2, height := 2 }

/-- A correlation kernel that scores every offset exactly `0.75`. -/
def scoreThreeQuarters : Img → Img → Nat → Nat → ℚ := fun _ _ _ _ => mkRat 3 4

/-- The degenerate surface `top_left = bottom_right = (10, 10)`. -/
def degenerateSurface : UISurface :=
  UISurface.new (UIPoint.new 10 10) (UIPoint.new 10 10)

/-- A second matching attempt that would match. -/
def secondWouldMatch : Unit → Except String (Option UISurface) :=
  fun _ => Except.ok (some (UISurface.new (UIPoint.new 16 150) (UIPoint.new 20 160)))

/-- A second matching attempt that would not match. -/
def secondWouldNotMatch : Unit → Except String (Option UISurface) :=
  fun _ => Except.ok none

/-! ## Claim theorems -/

/-- C1: if the template's width or height exceeds the corresponding
dimension of the masked search region (the preprocessed crop actually
searched), `with_surface` fails fast with an explicit error — the
imageproc dimension assert, a loud panic — and for no such input does it
silently return `NoMatch` (`Ok(None)`). -/
theorem with_surface_oversized_template_errors
    (luma : Nat → Nat) (score : Img → Img → Nat → Nat → ℚ)
    (screen : Img) (template : AssetTemplate) (mask : UIMask)
    (hbig : (mask.apply luma screen).width < template.image.width ∨
            (mask.apply luma screen).height < template.image.height) :
    (∃ e, with_surface luma score screen template mask = Except.error e) ∧
    ∀ r : Option UISurface,
      with_surface luma score screen template mask ≠ Except.ok r := by
  obtain ⟨e, he⟩ := match_template_oversized score (mask.apply luma screen)
    template.image hbig
  have hws : with_surface luma score screen template mask = Except.error e := by
    simp only [with_surface, he]
  exact ⟨⟨e, hws⟩, fun r hr => by rw [hws] at hr; exact Except.noConfusion hr⟩

/-- C1 witness: a 2×2 template against the 1×1 region obtained by
masking a 1×1 screen with `GEM_COLUMN`. -/
theorem with_surface_oversized_template_errors_witness :
    (∃ e, with_surface id scoreThreeQuarters screenOne templateTwo
      UIMask.GEM_COLUMN = Except.error e) ∧
    ∀ r : Option UISurface,
      with_surface id scoreThreeQuarters screenOne templateTwo
        UIMask.GEM_COLUMN ≠ Except.ok r :=
  with_surface_oversized_template_errors id scoreThreeQuarters screenOne
    templateTwo UIMask.GEM_COLUMN (Or.inl (by decide))

/-- C3: whenever template matching produces a score grid whose best
(maximum) cross-correlation score equals `MIN_SCORE = 0.75` exactly,
`with_surface` declares a match and returns a surface: the comparison
`best_score >= MIN_SCORE` is inclusive. -/
theorem with_surface_threshold_boundary_inclusive
    (luma : Nat → Nat) (score : Img → Img → Nat → Nat → ℚ)
    (screen : Img) (template : AssetTemplate) (mask : UIMask) (g : ScoreGrid)
    (hg : match_template score (mask.apply luma screen) template.image
      = Except.ok g)
    (hbest : (find_extremes g).1 = MIN_SCORE) :
    ∃ s, with_surface luma score screen template mask
      = Except.ok (some s) := by
  have hres : with_surface luma score screen template mask
      = Except.ok (some (UISurface.new
        (mask.to_point (find_extremes g).2.1 (find_extremes g).2.2)
        (mask.to_point ((find_extremes g).2.1 + template.width)
          ((find_extremes g).2.2 + template.height)))) := by
    simp only [with_surface, hg]
    rw [hbest, if_pos (le_refl MIN_SCORE)]
  exact ⟨_, hres⟩

/-- C3 witness: a constant-`0.75` score surface over a 1×1 region. -/
theorem with_surface_threshold_boundary_inclusive_witness :
    ∃ s, with_surface id scoreThreeQuarters screenOne templateOne
      UIMask.GEM_COLUMN = Except.ok (some s) :=
  with_surface_threshold_boundary_inclusive id scoreThreeQuarters screenOne
    templateOne UIMask.GEM_COLUMN
    { width := 1, height := 1, data := [mkRat 3 4] } (by decide) (by decide)

/-- C6: every surface produced by a successful match satisfies
`top_left.x ≤ bottom_right.x ∧ top_left.y ≤ bottom_right.y` — and hence
so does every surface the decision loop passes to `random_point`, since
those all come from `with_surface`. -/
theorem with_surface_surface_invariant
    (luma : Nat → Nat) (score : Img → Img → Nat → Nat → ℚ)
    (screen : Img) (template : AssetTemplate) (mask : UIMask) (s : UISurface)
    (h : with_surface luma score screen template mask = Except.ok (some s)) :
    s.invariant := by
  cases hg : match_template score (mask.apply luma screen) template.image with
  | error e =>
    simp only [with_surface, hg] at h
    exact Except.noConfusion h
  | ok g =>
    simp only [with_surface, hg] at h
    by_cases hle : MIN_SCORE ≤ (find_extremes g).1
    · rw [if_pos hle] at h
      have hs := Option.some.inj (Except.ok.inj h)
      subst hs
      exact ⟨Nat.add_le_add_left (Nat.le_add_right _ _) _,
             Nat.add_le_add_left (Nat.le_add_right _ _) _⟩
    · rw [if_neg hle] at h
      exact Option.noConfusion (Except.ok.inj h)

/-- C6 witness: the surface produced by the concrete successful match of
the C3 configuration satisfies the invariant. -/
theorem with_surface_surface_invariant_witness :
    (UISurface.new (UIPoint.new 0 0) (UIPoint.new 1 1)).invariant :=
  with_surface_surface_invariant id scoreThreeQuarters screenOne templateOne
    UIMask.GEM_COLUMN (UISurface.new (UIPoint.new 0 0) (UIPoint.new 1 1))
    (by decide)

/-- C2 counterexample: `GEM_COLUMN` is a 90×695 rectangle; cropping a
10×10 screen with it does not fail — `crop` is a total function built on
`crop_imm` and has no error outcome at all — and instead silently
returns the rectangle clamped to the 10×10 screen, refuting the claim
that `crop` fails with a "mask out of range" error on every
out-of-bounds mask. -/
theorem crop_mask_out_of_range_counterexample :
    10 < UIMask.GEM_COLUMN.width ∧ 10 < UIMask.GEM_COLUMN.height ∧
    (UIMask.GEM_COLUMN.crop screenTen).width = 10 ∧
    (UIMask.GEM_COLUMN.crop screenTen).height = 10 := by decide

/-- C2 amended: for every screen bitmap and every mask — including each
mask whose rectangle exceeds the screen's bounds — `crop` never fails:
it silently clamps the rectangle to the screen (origin clamped into the
image, then width and height clamped to what remains) and returns that
clamped sub-bitmap, whose in-range pixels are copied from the screen at
the clamped origin plus the relative offset. -/
theorem crop_silently_clamps (m : UIMask) (img : Img) :
    (m.crop img).width = min m.width (img.width - min m.x img.width) ∧
    (m.crop img).height = min m.height (img.height - min m.y img.height) ∧
    ∀ rx ry : Nat, rx < (m.crop img).width → ry < (m.crop img).height →
      (m.crop img).get rx ry
        = img.get (min m.x img.width + rx) (min m.y img.height + ry) :=
  ⟨rfl, rfl, fun _ _ hx hy => m.crop_get img hx hy⟩

/-- C2 amended-claim witness: evaluated on the 10×10 screen and the
out-of-bounds `GEM_COLUMN` mask at relative pixel (0, 0). -/
theorem crop_silently_clamps_witness :
    (UIMask.GEM_COLUMN.crop screenTen).get 0 0
      = screenTen.get (min UIMask.GEM_COLUMN.x screenTen.width + 0)
          (min UIMask.GEM_COLUMN.y screenTen.height + 0) :=
  (crop_silently_clamps UIMask.GEM_COLUMN screenTen).2.2 0 0
    (by decide) (by decide)

/-- C5: for every rectangle fully inside the screen, `crop` returns a
bitmap of exactly `width × height` pixels, `to_point(rx, ry)` is the
absolute point `(mask.x + rx, mask.y + ry)`, and applying `to_point` to
a mask-local coordinate of the crop recovers the absolute coordinate of
that pixel in the original screen: `to_point` inverts crop's coordinate
translation. -/
theorem crop_to_point_inverse (m : UIMask) (img : Img)
    (hx : m.x + m.width ≤ img.width) (hy : m.y + m.height ≤ img.height) :
    (m.crop img).width = m.width ∧ (m.crop img).height = m.height ∧
    ∀ rx ry : Nat, rx < m.width → ry < m.height →
      m.to_point rx ry = UIPoint.new (m.x + rx) (m.y + ry) ∧
      (m.crop img).get rx ry
        = img.get (m.to_point rx ry).x (m.to_point rx ry).y := by
  have hxm : m.x ≤ img.width := le_trans (Nat.le_add_right _ _) hx
  have hym : m.y ≤ img.height := le_trans (Nat.le_add_right _ _) hy
  have hw : (m.crop img).width = m.width := by
    rw [UIMask.crop_width, Nat.min_eq_left hxm, Nat.min_eq_left (by omega)]
  have hh : (m.crop img).height = m.height := by
    rw [UIMask.crop_height, Nat.min_eq_left hym, Nat.min_eq_left (by omega)]
  refine ⟨hw, hh, fun rx ry hrx hry => ⟨rfl, ?_⟩⟩
  rw [UIMask.crop_get m img (by rw [hw]; exact hrx) (by rw [hh]; exact hry),
    Nat.min_eq_left hxm, Nat.min_eq_left hym]
  rfl

/-- C5 witness: the 50×25 `GEM_CURRENCY` rectangle at (25, 52) inside
the 80×80 screen. -/
theorem crop_to_point_inverse_witness :
    (UIMask.GEM_CURRENCY.crop screenEighty).width = UIMask.GEM_CURRENCY.width ∧
    (UIMask.GEM_CURRENCY.crop screenEighty).height = UIMask.GEM_CURRENCY.height ∧
    ∀ rx ry : Nat,
      rx < UIMask.GEM_CURRENCY.width → ry < UIMask.GEM_CURRENCY.height →
      UIMask.GEM_CURRENCY.to_point rx ry
        = UIPoint.new (UIMask.GEM_CURRENCY.x + rx) (UIMask.GEM_CURRENCY.y + ry) ∧
      (UIMask.GEM_CURRENCY.crop screenEighty).get rx ry
        = screenEighty.get (UIMask.GEM_CURRENCY.to_point rx ry).x
            (UIMask.GEM_CURRENCY.to_point rx ry).y :=
  crop_to_point_inverse UIMask.GEM_CURRENCY screenEighty (by decide) (by decide)

/-- C7: for every surface satisfying the invariant, `random_point`
returns a point lying within the surface on both axes, bounds inclusive;
in particular the degenerate surface with
`top_left = bottom_right = (10, 10)` always yields exactly `(10, 10)`,
for every pair of random draws. -/
theorem random_point_within_bounds :
    (∀ (s : UISurface) (sx sy : Nat), s.invariant →
      ∃ p : Point, s.random_point sx sy = some p ∧
        s.top_left.x ≤ p.x ∧ p.x ≤ s.bottom_right.x ∧
        s.top_left.y ≤ p.y ∧ p.y ≤ s.bottom_right.y) ∧
    (∀ sx sy : Nat,
      degenerateSurface.random_point sx sy = some (Point.new 10 10)) := by
  constructor
  · intro s sx sy hinv
    obtain ⟨hx, hy⟩ := hinv
    have hmx : sx % (s.bottom_right.x - s.top_left.x + 1)
        ≤ s.bottom_right.x - s.top_left.x :=
      Nat.lt_succ_iff.mp (Nat.mod_lt _ (Nat.succ_pos _))
    have hmy : sy % (s.bottom_right.y - s.top_left.y + 1)
        ≤ s.bottom_right.y - s.top_left.y :=
      Nat.lt_succ_iff.mp (Nat.mod_lt _ (Nat.succ_pos _))
    refine ⟨_, s.random_point_of_invariant ⟨hx, hy⟩ sx sy, ?_, ?_, ?_, ?_⟩ <;>
      simp only [Point.new] <;> omega
  · intro sx sy
    have h := degenerateSurface.random_point_of_invariant (by decide) sx sy
    simpa [degenerateSurface, UISurface.new, UIPoint.new, Nat.mod_one] using h

/-- C7 witness: the degenerate surface with draws 3 and 5. -/
theorem random_point_within_bounds_witness :
    ∃ p : Point, degenerateSurface.random_point 3 5 = some p ∧
      degenerateSurface.top_left.x ≤ p.x ∧
      p.x ≤ degenerateSurface.bottom_right.x ∧
      degenerateSurface.top_left.y ≤ p.y ∧
      p.y ≤ degenerateSurface.bottom_right.y :=
  random_point_within_bounds.1 degenerateSurface 3 5 (by decide)

/-- C10: `random_point` is partial at the public interface:
`UISurface::new` stores its arguments unvalidated, and `random_point`
returns a point exactly when the surface invariant holds — for any
surface violating it, the inclusive sampling range is empty and the call
panics (`none` in this model). -/
theorem random_point_partial_without_invariant :
    (∀ tl br : UIPoint, (UISurface.new tl br).top_left = tl ∧
      (UISurface.new tl br).bottom_right = br) ∧
    (∀ (s : UISurface) (sx sy : Nat),
      (Option.isSome (s.random_point sx sy) = true) ↔ s.invariant) := by
  refine ⟨fun tl br => ⟨rfl, rfl⟩, fun s sx sy => ?_⟩
  unfold UISurface.random_point randomRange UISurface.invariant
  by_cases hx : s.top_left.x ≤ s.bottom_right.x
  · by_cases hy : s.top_left.y ≤ s.bottom_right.y
    · simp [hx, hy]
    · simp [hx, hy]
  · simp [hx]

/-- C8: preprocessing is a deterministic, pure function of the input
pixel bytes: for any fixed grayscale conversion, running
`apply_threshold` on two byte-identical bitmaps yields byte-identical
binarized output (identical dimensions and pixel bytes). -/
theorem apply_threshold_deterministic (luma : Nat → Nat) (a b : Img)
    (hw : a.width = b.width) (hh : a.height = b.height)
    (hd : a.data = b.data) :
    (apply_threshold luma a).width = (apply_threshold luma b).width ∧
    (apply_threshold luma a).height = (apply_threshold luma b).height ∧
    (apply_threshold luma a).data = (apply_threshold luma b).data := by
  cases a
  cases b
  simp only [Img.mk.injEq] at hw hh hd ⊢
  subst hw
  subst hh
  subst hd
  exact ⟨rfl, rfl, rfl⟩

/-- C8 witness: the theorem applied twice to the 10×10 fixture. -/
theorem apply_threshold_deterministic_witness :
    (apply_threshold id screenTen).width
      = (apply_threshold id screenTen).width ∧
    (apply_threshold id screenTen).height
      = (apply_threshold id screenTen).height ∧
    (apply_threshold id screenTen).data
      = (apply_threshold id screenTen).data :=
  apply_threshold_deterministic id screenTen screenTen rfl rfl rfl

/-- C4: when the first (higher-priority) triple — the gems template
against `GEM_COLUMN` — yields a confident match, the second triple is
neither evaluated nor acted on: the cycle's result is the same for every
possible second matching attempt `g₁`, `g₂` (match, no-match or error),
and it is the gems branch's result — two taps at independently drawn
points with a 500 ms pause, and a 630-second wait. -/
theorem decision_loop_first_match_short_circuits
    (s : UISurface) (hs : s.invariant)
    (g₁ g₂ : Unit → Except String (Option UISurface))
    (s1x s1y s2x s2y : Nat) :
    decisionCycle (Except.ok (some s)) g₁ s1x s1y s2x s2y
      = decisionCycle (Except.ok (some s)) g₂ s1x s1y s2x s2y ∧
    ∃ p₁ p₂ : Point,
      decisionCycle (Except.ok (some s)) g₁ s1x s1y s2x s2y
        = Except.ok
            ([DroidAction.tap p₁, DroidAction.pause 500, DroidAction.tap p₂],
              630) := by
  have h1 := s.random_point_of_invariant hs s1x s1y
  have h2 := s.random_point_of_invariant hs s2x s2y
  constructor
  · simp only [decisionCycle, h1, h2]
  · simp only [decisionCycle, h1, h2]
    exact ⟨_, _, rfl⟩

/-- C4 witness: the degenerate surface matched first, with one second
attempt that would match and one that would not. -/
theorem decision_loop_first_match_short_circuits_witness :
    decisionCycle (Except.ok (some degenerateSurface)) secondWouldMatch 0 1 2 3
      = decisionCycle (Except.ok (some degenerateSurface)) secondWouldNotMatch
          0 1 2 3 ∧
    ∃ p₁ p₂ : Point,
      decisionCycle (Except.ok (some degenerateSurface)) secondWouldMatch
          0 1 2 3
        = Except.ok
            ([DroidAction.tap p₁, DroidAction.pause 500, DroidAction.tap p₂],
              630) :=
  decision_loop_first_match_short_circuits degenerateSurface (by decide)
    secondWouldMatch secondWouldNotMatch 0 1 2 3

/-- C9: the wait computed after a successful "claim gems" action is 630
seconds, the wait for a cycle in which no template matched is 60
seconds, and the former is strictly greater. -/
theorem backoff_claim_exceeds_nomatch
    (s : UISurface) (hs : s.invariant)
    (g : Unit → Except String (Option UISurface)) (s1x s1y s2x s2y : Nat) :
    ∃ (acts : List DroidAction) (dGems dIdle : Nat),
      decisionCycle (Except.ok (some s)) g s1x s1y s2x s2y
        = Except.ok (acts, dGems) ∧
      decisionCycle (Except.ok none) (fun _ => Except.ok none) s1x s1y s2x s2y
        = Except.ok ([], dIdle) ∧
      dIdle < dGems := by
  have h1 := s.random_point_of_invariant hs s1x s1y
  have h2 := s.random_point_of_invariant hs s2x s2y
  refine ⟨[DroidAction.tap (Point.new
      (s.top_left.x + s1x % (s.bottom_right.x - s.top_left.x + 1))
      (s.top_left.y + s1y % (s.bottom_right.y - s.top_left.y + 1))),
    DroidAction.pause 500,
    DroidAction.tap (Point.new
      (s.top_left.x + s2x % (s.bottom_right.x - s.top_left.x + 1))
      (s.top_left.y + s2y % (s.bottom_right.y - s.top_left.y + 1)))],
    630, 60, ?_, rfl, by omega⟩
  simp only [decisionCycle, h1, h2]

/-- C9 witness: evaluated with the degenerate surface. -/
theorem backoff_claim_exceeds_nomatch_witness :
    ∃ (acts : List DroidAction) (dGems dIdle : Nat),
      decisionCycle (Except.ok (some degenerateSurface)) secondWouldNotMatch
          0 1 2 3
        = Except.ok (acts, dGems) ∧
      decisionCycle (Except.ok none) (fun _ => Except.ok none) 0 1 2 3
        = Except.ok ([], dIdle) ∧
      dIdle < dGems :=
  backoff_claim_exceeds_nomatch degenerateSurface (by decide)
    secondWouldNotMatch 0 1 2 3
